import Mathlib

/-!
Shallow embedding of the Mini-Tool repository's role-rotation ("spotlight")
subsystem and the nickname prefix/suffix store ("card"), together with
theorems settling the documented behavioural claims against the code.

Timestamps are modelled as integers (seconds since the epoch); role and
member identifiers as natural numbers.  Randomness in the source
(`random.shuffle`, `random.sample`, `random.choice`) is modelled by
parameterising the embedded functions over the shuffled lists / sampled
sublists / chosen index, with permutation and membership hypotheses in the
theorems.
-/

namespace Spotlight

/-- Seconds in one hour, used because the source measures
`rotation_interval_hours` in hours via `timedelta(hours=interval)`. -/
def secondsPerHour : Int := 3600

/-- Duration of one rotation interval for the due check
(`rotate_spotlight`, lines 1467-1472): the debug value 5 means one
minute (`timedelta(minutes=1)`), otherwise `interval` hours. -/
def intervalDuration (intervalHours : Int) : Int :=
  if intervalHours = 5 then 60 else intervalHours * secondsPerHour

/-- The due check of `rotate_spotlight` (lines 1449-1488): a config with no
`last_rotation` is due; otherwise the next rotation time is
`last_rotation + intervalDuration` and the config is due when
`current_time >= next_rotation`. -/
def isDue (lastRotation : Option Int) (intervalHours : Int) (now : Int) : Bool :=
  match lastRotation with
  | none => true
  | some lr =>
      let nextRotation := lr + intervalDuration intervalHours
      decide (nextRotation ≤ now)

/-- The `while expected_rotation <= current_time: expected_rotation +=
timedelta(hours=rotation_interval)` loop of `rotate_spotlight`
(lines 1790-1792).  The source relies on the interval being positive for
termination; the guard `0 < step` makes that explicit. -/
def rotationExpected (step now expected : Int) : Int :=
  if h : 0 < step ∧ expected ≤ now then
    rotationExpected step now (expected + step)
  else
    expected
termination_by (now + step - expected).toNat
decreasing_by
  have h1 : expected ≤ now := h.2
  have h2 : 0 < step := h.1
  have : now - expected < now + step - expected := by omega
  omega

/-- Post-rotation bookkeeping of `rotate_spotlight` (lines 1773-1810): with
no previous rotation the new `last_rotation` is wall-clock `now`; otherwise
the loop advances from the previous `last_rotation` in whole steps of
`rotation_interval` **hours** (the debug 1-minute duration is not used
here) until it passes `now`, steps one interval back, and clamps to `now`
if the result would lie in the future. -/
def snapRotationTime (lastRotation : Option Int) (intervalHours now : Int) : Int :=
  match lastRotation with
  | none => now
  | some lr =>
      let step := intervalHours * secondsPerHour
      let expected := rotationExpected step now lr
      let rotationTime := expected - step
      if now < rotationTime then now else rotationTime

/-- The `last_rotation` update of `rotate_spotlight` (lines 1773-1823):
if any role operation failed to enqueue, `last_rotation` is left unchanged;
otherwise it is set to the snapped rotation time. -/
def rotationBookkeeping (hadErrors : Bool) (lastRotation : Option Int)
    (intervalHours now : Int) : Option Int :=
  if hadErrors then lastRotation
  else some (snapRotationTime lastRotation intervalHours now)

/-- Presence states delivered by the platform; the source only ever
distinguishes `offline` and `invisible` from the rest. -/
inductive Status where
  | online
  | idle
  | dnd
  | streaming
  | offline
  | invisible
deriving DecidableEq

/-- `member.status == discord.Status.offline or member.status ==
discord.Status.invisible`, the offline test used throughout
`spotlight.py`. -/
def isOfflineStatus (s : Status) : Bool :=
  s == Status.offline || s == Status.invisible

/-- A guild member snapshot: identifier, role ids, presence, whether
`timed_out_until` is set, and the bot flag. -/
structure Member where
  id : Nat
  roles : List Nat
  status : Status
  timedOut : Bool
  bot : Bool
deriving DecidableEq

/-- Python `member in member_list` (discord members compare by id). -/
def memMember (xs : List Member) (m : Member) : Bool :=
  xs.any (fun x => x.id == m.id)

/-- A queued role mutation: target member, target role and direction
(`add = true` is a grant, `add = false` a revoke). -/
structure RoleOp where
  memberId : Nat
  roleId : Nat
  add : Bool
deriving DecidableEq

/-- Number of grants in an operation list. -/
def countGrants (ops : List RoleOp) : Nat :=
  (ops.filter (fun op => op.add)).length

/-- Number of revokes in an operation list. -/
def countRevokes (ops : List RoleOp) : Nat :=
  (ops.filter (fun op => !op.add)).length

/-- `rotate_spotlight` lines 1563-1573: members holding both the target
and the initial role. -/
def currentSpotlight (members : List Member) (initialRole targetRole : Nat) : List Member :=
  members.filter (fun m => m.roles.contains targetRole && m.roles.contains initialRole)

/-- `rotate_spotlight` lines 1575-1586: members holding the initial role
and none of the blacklisted roles. -/
def allEligible (members : List Member) (initialRole : Nat)
    (blacklisted : List Nat) : List Member :=
  members.filter (fun m =>
    m.roles.contains initialRole && !(blacklisted.any (fun r => m.roles.contains r)))

/-- `rotate_spotlight` lines 1592-1617: drop timed-out members when
`ignore_timed_out` is set, then split into active and offline when
`prioritize_active` is set (otherwise everyone lands in the first
partition), preserving the source's iteration order. -/
def partitionActivity (eligible : List Member)
    (ignoreTimedOut prioritizeActive : Bool) : List Member × List Member :=
  match eligible with
  | [] => ([], [])
  | m :: rest =>
      let p := partitionActivity rest ignoreTimedOut prioritizeActive
      if ignoreTimedOut && m.timedOut then p
      else if prioritizeActive then
        if isOfflineStatus m.status then (p.1, m :: p.2) else (m :: p.1, p.2)
      else (m :: p.1, p.2)

/-- `rotate_spotlight` lines 1626-1631: take up to `max_users` members
from the (shuffled) active list, then fill any remaining slots from the
(shuffled) offline list if it is non-empty. -/
def selectSpotlight (active offline : List Member) (maxUsers : Nat) : List Member :=
  let selected := active.take maxUsers
  let remainingSlots := maxUsers - selected.length
  if 0 < remainingSlots ∧ offline ≠ [] then selected ++ offline.take remainingSlots
  else selected

/-- `rotate_spotlight` lines 1745-1769 (standard mode): enqueue a revoke
for every current spotlight member not in the selection, then a grant for
every selected member not already holding the target role. -/
def standardOps (currentSpot selected : List Member) (targetRole : Nat) : List RoleOp :=
  (currentSpot.filter (fun m => !memMember selected m)).map
    (fun m => { memberId := m.id, roleId := targetRole, add := false })
  ++ (selected.filter (fun m => !m.roles.contains targetRole)).map
    (fun m => { memberId := m.id, roleId := targetRole, add := true })

/-- `rotate_spotlight` lines 1645-1656: eligible members not currently in
the spotlight (with the timeout double-check). -/
def eligibleReplacements (eligible currentSpot : List Member)
    (ignoreTimedOut : Bool) : List Member :=
  eligible.filter (fun m =>
    !memMember currentSpot m && (!ignoreTimedOut || !m.timedOut))

/-- `rotate_spotlight` lines 1682-1741 (`always_replace_current` mode).
`replacements` stands for the shuffled `eligible_replacements` list and
`usersToRemove` for the outcome of `random.sample(current_spotlight,
num_to_replace)`; theorems constrain them by permutation / sampling
hypotheses.  With no current holder, up to `max_users` replacements are
granted directly; otherwise `min` of the two sizes are revoked and
granted pairwise, then further replacements are granted only while slots
remain below `max_users`. -/
def replaceOps (currentSpot replacements usersToRemove : List Member)
    (maxUsers : Nat) (targetRole : Nat) : List RoleOp :=
  if currentSpot.isEmpty then
    (replacements.take maxUsers).map
      (fun m => { memberId := m.id, roleId := targetRole, add := true })
  else if !replacements.isEmpty then
    let numToReplace := min currentSpot.length replacements.length
    if 0 < numToReplace then
      let usersToAdd := replacements.take numToReplace
      let afterReplacement :=
        currentSpot.length - usersToRemove.length + usersToAdd.length
      let remainingSlots := maxUsers - afterReplacement
      let additional :=
        (replacements.filter (fun m => !memMember usersToAdd m)).take remainingSlots
      usersToRemove.map (fun m => { memberId := m.id, roleId := targetRole, add := false })
      ++ usersToAdd.map (fun m => { memberId := m.id, roleId := targetRole, add := true })
      ++ additional.map (fun m => { memberId := m.id, roleId := targetRole, add := true })
    else []
  else []

/-- Rotation settings read from one `spotlight` row, as used by
`on_presence_update`. -/
structure PresenceConfig where
  initialRole : Nat
  targetRole : Nat
  removeWhenOffline : Bool
  ignoreTimedOut : Bool
  prioritizeActive : Bool
  blacklist : List Nat

/-- `on_presence_update` lines 1904-1910: potential replacements are other
non-bot members holding the initial role, not holding the target role and
not blacklisted. -/
def presencePotential (after : Member) (guild : List Member)
    (cfg : PresenceConfig) : List Member :=
  guild.filter (fun m =>
    m.id != after.id
    && m.roles.contains cfg.initialRole
    && !m.roles.contains cfg.targetRole
    && !m.bot
    && !(cfg.blacklist.any (fun r => m.roles.contains r)))

/-- `on_presence_update` lines 1915-1936: with `prioritize_active`, prefer
the (shuffled) active candidates and fall back to the offline ones; the
shuffle only permutes the pool that `random.choice` draws from, so it is
absorbed into the random index of `presenceConfigOps`. -/
def presenceEligible (after : Member) (guild : List Member)
    (cfg : PresenceConfig) : List Member :=
  let pot := presencePotential after guild cfg
  if cfg.prioritizeActive then
    let act := pot.filter (fun m =>
      !isOfflineStatus m.status && (!cfg.ignoreTimedOut || !m.timedOut))
    let off := pot.filter (fun m =>
      isOfflineStatus m.status && (!cfg.ignoreTimedOut || !m.timedOut))
    if !act.isEmpty then act else off
  else pot.filter (fun m => !cfg.ignoreTimedOut || !m.timedOut)

/-- Per-config body of `on_presence_update` (lines 1893-1946): skip
configs without `remove_when_offline` or whose target role the member does
not hold; otherwise, when a replacement exists, enqueue one revoke for the
departing member and one grant for the randomly chosen replacement
(`pick` indexes the eligible pool), else enqueue nothing. -/
def presenceConfigOps (after : Member) (guild : List Member)
    (cfg : PresenceConfig) (pick : Nat) : List RoleOp :=
  if !cfg.removeWhenOffline then []
  else if !after.roles.contains cfg.targetRole then []
  else
    let elig := presenceEligible after guild cfg
    if elig.isEmpty then []
    else
      let replacement := elig.getD (pick % elig.length) after
      [{ memberId := after.id, roleId := cfg.targetRole, add := false },
       { memberId := replacement.id, roleId := cfg.targetRole, add := true }]

/-- `on_presence_update` lines 1836-1946 for a single config, including
the transition guards, paired with the config's `last_rotation`, which
this handler never writes. -/
def onPresenceUpdate (beforeStatus : Status) (after : Member)
    (guild : List Member) (cfg : PresenceConfig) (pick : Nat)
    (lastRotation : Option Int) : List RoleOp × Option Int :=
  if beforeStatus == after.status then ([], lastRotation)
  else if after.status != Status.offline then ([], lastRotation)
  else (presenceConfigOps after guild cfg pick, lastRotation)

/-- An entry of the role mutation queue: operation identity and the
`attempts` counter of `RoleOperation`. -/
structure QueuedOp where
  opId : Nat
  attempts : Nat
deriving DecidableEq

/-- One iteration of `process_role_queue` (lines 1360-1411): pop the front
operation; on success append its id to the applied log; on a transient
failure increment `attempts` and push the operation back to the **front**
of the queue, dropping it once `attempts` reaches 3.  `fails op k` tells
whether the platform call for `op` fails on the attempt made with counter
value `k`. -/
def queueStep (fails : Nat → Nat → Bool) (queue : List QueuedOp)
    (applied : List Nat) : List QueuedOp × List Nat :=
  match queue with
  | [] => ([], applied)
  | op :: rest =>
      if fails op.opId op.attempts then
        let attemptsNow := op.attempts + 1
        if attemptsNow < 3 then ({ op with attempts := attemptsNow } :: rest, applied)
        else (rest, applied)
      else (rest, applied ++ [op.opId])

/-- Iterate the queue consumer a given number of times. -/
def runQueue (fails : Nat → Nat → Bool) : Nat → List QueuedOp → List Nat →
    List QueuedOp × List Nat
  | 0, queue, applied => (queue, applied)
  | n + 1, queue, applied =>
      let st := queueStep fails queue applied
      runQueue fails n st.1 st.2

/-- Failure pattern of the C7 scenario: operation 2 fails on its first two
attempts and succeeds afterwards; everything else succeeds immediately. -/
def failsSecondTwice (opId attempts : Nat) : Bool :=
  opId == 2 && attempts < 2

/-- One row of the `spotlight` table. -/
structure SpotRow where
  guildId : Nat
  initialRoleId : Nat
  targetRoleId : Nat
  maxUsers : Int
  rotationIntervalHours : Int
  lastRotation : Option Int
  removeWhenOffline : Bool
  prioritizeActive : Bool
  ignoreTimedOut : Bool
  alwaysReplaceCurrent : Bool
deriving DecidableEq

/-- Database state relevant to `set_spotlight`: the `spotlight` rows and
the `spotlight_guild_settings` rows (guild id, `max_configs`). -/
structure SpotState where
  rows : List SpotRow
  guildSettings : List (Nat × Int)
deriving DecidableEq

/-- `Spotlight.get_guild_max_configs` (lines 179-187): the guild's
`max_configs` setting, defaulting to 1 when no row exists. -/
def getGuildMaxConfigs (st : SpotState) (guildId : Nat) : Int :=
  match st.guildSettings.find? (fun p => p.1 == guildId) with
  | some p => p.2
  | none => 1

/-- The distinct ephemeral replies `set_spotlight` can produce. -/
inductive SetReply where
  | intervalNotAllowed
  | maxUsersTooLow
  | maxUsersTooHigh
  | initialRoleTooHigh
  | targetRoleTooHigh
  | sameRole
  | duplicateTarget
  | limitReached
  | updated
  | configured
deriving DecidableEq

/-- Resolved parameters of one `set_spotlight` invocation.  Role positions
model the hierarchy comparison against the bot's top role;
`hasOptions` models `interaction.data.get('options')` being non-empty. -/
structure SetInput where
  guildId : Nat
  userId : Nat
  initialRoleId : Nat
  targetRoleId : Nat
  initialRolePos : Int
  targetRolePos : Int
  botTopRolePos : Int
  maxUsers : Int
  rotationIntervalHours : Int
  removeWhenOffline : Bool
  prioritizeActive : Bool
  ignoreTimedOut : Bool
  alwaysReplaceCurrent : Bool
  hasOptions : Bool
deriving DecidableEq

/-- The row fields written by the UPDATE branch of `set_spotlight`
(lines 328-342). -/
def applyUpdate (inp : SetInput) (r : SpotRow) : SpotRow :=
  { r with
    maxUsers := inp.maxUsers
    rotationIntervalHours := inp.rotationIntervalHours
    removeWhenOffline := inp.removeWhenOffline
    prioritizeActive := inp.prioritizeActive
    ignoreTimedOut := inp.ignoreTimedOut
    alwaysReplaceCurrent := inp.alwaysReplaceCurrent }

/-- The row inserted by `set_spotlight` (lines 360-376), with
`last_rotation` null. -/
def newRow (inp : SetInput) : SpotRow :=
  { guildId := inp.guildId
    initialRoleId := inp.initialRoleId
    targetRoleId := inp.targetRoleId
    maxUsers := inp.maxUsers
    rotationIntervalHours := inp.rotationIntervalHours
    lastRotation := none
    removeWhenOffline := inp.removeWhenOffline
    prioritizeActive := inp.prioritizeActive
    ignoreTimedOut := inp.ignoreTimedOut
    alwaysReplaceCurrent := inp.alwaysReplaceCurrent }

/-- Update-or-insert tail of `set_spotlight` (lines 319-379): update the
exact `(guild, initial, target)` row when it exists; otherwise enforce the
per-guild `max_configs` bound before inserting a fresh row. -/
def setSpotlightUpsert (st : SpotState) (inp : SetInput) : SetReply × SpotState :=
  if st.rows.any (fun r =>
      r.guildId == inp.guildId && r.initialRoleId == inp.initialRoleId
        && r.targetRoleId == inp.targetRoleId) then
    (SetReply.updated,
      { st with rows := st.rows.map (fun r =>
          if r.guildId == inp.guildId && r.initialRoleId == inp.initialRoleId
              && r.targetRoleId == inp.targetRoleId then
            applyUpdate inp r
          else r) })
  else
    let count := (st.rows.filter (fun r => r.guildId == inp.guildId)).length
    if getGuildMaxConfigs st inp.guildId ≤ (count : Int) then
      (SetReply.limitReached, st)
    else
      (SetReply.configured, { st with rows := st.rows ++ [newRow inp] })

/-- `Spotlight.set_spotlight` (lines 256-379): input validation —
debug-interval permission, `max_users` bounds, role hierarchy, distinct
roles — then the duplicate-target check and the update-or-insert tail. -/
def setSpotlight (st : SpotState) (inp : SetInput) : SetReply × SpotState :=
  if inp.rotationIntervalHours == 5 && inp.userId != 311456723682590721 then
    (SetReply.intervalNotAllowed, st)
  else if inp.maxUsers < 1 then (SetReply.maxUsersTooLow, st)
  else if 8 < inp.maxUsers then (SetReply.maxUsersTooHigh, st)
  else if inp.botTopRolePos ≤ inp.initialRolePos then (SetReply.initialRoleTooHigh, st)
  else if inp.botTopRolePos ≤ inp.targetRolePos then (SetReply.targetRoleTooHigh, st)
  else if inp.initialRoleId == inp.targetRoleId then (SetReply.sameRole, st)
  else
    match st.rows.find? (fun r =>
        r.guildId == inp.guildId && r.targetRoleId == inp.targetRoleId) with
    | some existing =>
        if existing.initialRoleId != inp.initialRoleId || !inp.hasOptions then
          (SetReply.duplicateTarget, st)
        else setSpotlightUpsert st inp
    | none => setSpotlightUpsert st inp

/-! Concrete scenario data used by counterexamples and witnesses. -/

/-- Ten eligible members: ids 1-4 active, ids 5-10 offline, all holding
initial role 10 (the C5 scenario). -/
def exTen : List Member :=
  [{ id := 1, roles := [10], status := Status.online, timedOut := false, bot := false },
   { id := 2, roles := [10], status := Status.online, timedOut := false, bot := false },
   { id := 3, roles := [10], status := Status.idle, timedOut := false, bot := false },
   { id := 4, roles := [10], status := Status.streaming, timedOut := false, bot := false },
   { id := 5, roles := [10], status := Status.offline, timedOut := false, bot := false },
   { id := 6, roles := [10], status := Status.offline, timedOut := false, bot := false },
   { id := 7, roles := [10], status := Status.offline, timedOut := false, bot := false },
   { id := 8, roles := [10], status := Status.invisible, timedOut := false, bot := false },
   { id := 9, roles := [10], status := Status.offline, timedOut := false, bot := false },
   { id := 10, roles := [10], status := Status.offline, timedOut := false, bot := false }]

/-- Current target-role holder A (initial role 10, target role 99). -/
def exA : Member :=
  { id := 1, roles := [10, 99], status := Status.online, timedOut := false, bot := false }

/-- Current target-role holder B. -/
def exB : Member :=
  { id := 2, roles := [10, 99], status := Status.online, timedOut := false, bot := false }

/-- Current target-role holder C. -/
def exC : Member :=
  { id := 5, roles := [10, 99], status := Status.online, timedOut := false, bot := false }

/-- Replacement candidate D (initial role only). -/
def exD : Member :=
  { id := 3, roles := [10], status := Status.online, timedOut := false, bot := false }

/-- Replacement candidate E. -/
def exE : Member :=
  { id := 4, roles := [10], status := Status.online, timedOut := false, bot := false }

/-- Guild of four for the standard-mode reconciliation witness: ids 1 and 3
hold initial 10 and target 20; ids 2 and 4 hold only the initial role. -/
def exGuildFour : List Member :=
  [{ id := 1, roles := [10, 20], status := Status.online, timedOut := false, bot := false },
   { id := 2, roles := [10], status := Status.online, timedOut := false, bot := false },
   { id := 3, roles := [10, 20], status := Status.online, timedOut := false, bot := false },
   { id := 4, roles := [10], status := Status.online, timedOut := false, bot := false }]

/-- The departing member of the presence-eviction witness: holds initial
role 10 and target role 20 and has just gone offline. -/
def exAfter : Member :=
  { id := 1, roles := [10, 20], status := Status.offline, timedOut := false, bot := false }

/-- Guild for the presence-eviction witness: the departing member and one
eligible non-holder. -/
def exPresenceGuild : List Member :=
  [exAfter,
   { id := 2, roles := [10], status := Status.online, timedOut := false, bot := false }]

/-- Config for the presence-eviction witness. -/
def exPresenceCfg : PresenceConfig :=
  { initialRole := 10, targetRole := 20, removeWhenOffline := true,
    ignoreTimedOut := false, prioritizeActive := false, blacklist := [] }

/-- A stored spotlight row: guild 1 drives target role 20 from initial
role 10. -/
def exRow : SpotRow :=
  { guildId := 1, initialRoleId := 10, targetRoleId := 20, maxUsers := 1,
    rotationIntervalHours := 1, lastRotation := none, removeWhenOffline := false,
    prioritizeActive := false, ignoreTimedOut := false, alwaysReplaceCurrent := false }

/-- Database state holding only `exRow`, with no guild-settings row
(`max_configs` defaults to 1): the guild is at its configuration limit. -/
def exState : SpotState := { rows := [exRow], guildSettings := [] }

/-- A valid invocation whose (initial 11, target 20) pair matches no row
but whose target role is already driven by initial role 10. -/
def exInput : SetInput :=
  { guildId := 1, userId := 0, initialRoleId := 11, targetRoleId := 20,
    initialRolePos := 1, targetRolePos := 2, botTopRolePos := 10, maxUsers := 1,
    rotationIntervalHours := 1, removeWhenOffline := false, prioritizeActive := false,
    ignoreTimedOut := false, alwaysReplaceCurrent := false, hasOptions := true }

/-- State for the limit-reached witness: guild 1 already holds one config
(initial 10, target 21) and `max_configs` defaults to 1. -/
def exStateLimit : SpotState :=
  { rows := [{ exRow with targetRoleId := 21 }], guildSettings := [] }

/-- A valid invocation of a fresh (initial 11, target 20) pair whose
target role is unused: it must be refused by the limit. -/
def exInputLimit : SetInput := exInput

end Spotlight

namespace Card

/-- `transform_emoji` (card.py lines 15-28): `None` and the empty string
are returned unchanged (Python falsiness); otherwise every emoji
variation selector U+FE0F is removed. -/
def transformEmoji (text : Option String) : Option String :=
  match text with
  | none => none
  | some s =>
      if s = "" then some s
      else some (String.mk (s.data.filter (fun c => c ≠ Char.ofNat 0xFE0F)))

/-- Python truthiness of an optional string column value. -/
def optTruthy (text : Option String) : Bool :=
  match text with
  | none => false
  | some s => s ≠ ""

/-- The `guild_role_prefix_suffix` table: rows of
(guild id, role id, stored column values). -/
def CardStore : Type := List (Nat × Nat × Option String × Option String)

/-- `Card.set_role_prefix_suffix` (lines 348-364): reject when both values
are null, otherwise `INSERT OR REPLACE` the row keyed on
(guild id, role id), storing the values as passed. -/
def setRolePrefixSuffix (store : CardStore) (guildId roleId : Nat)
    (pfx sfx : Option String) : CardStore × Bool :=
  if pfx = none ∧ sfx = none then (store, false)
  else
    ((guildId, roleId, pfx, sfx) ::
      store.filter (fun r => !(r.1 == guildId && r.2.1 == roleId)), true)

/-- `Card.get_role_prefix_suffix` (lines 366-383): look the row up and
return each column passed through `transform_emoji` when truthy, `None`
otherwise (an empty stored string therefore reads back as null). -/
def getRolePrefixSuffix (store : CardStore) (guildId roleId : Nat) :
    Option (Option String × Option String) :=
  match store.find? (fun r => r.1 == guildId && r.2.1 == roleId) with
  | none => none
  | some r =>
      some (if optTruthy r.2.2.1 then transformEmoji r.2.2.1 else none,
            if optTruthy r.2.2.2 then transformEmoji r.2.2.2 else none)

/-- What a stored column value reads back as through
`get_role_prefix_suffix`. -/
def readBack (text : Option String) : Option String :=
  if optTruthy text then transformEmoji text else none

end Card

namespace Spotlight

theorem rotationExpected_step {step now expected : Int}
    (hs : 0 < step) (hle : expected ≤ now) :
    rotationExpected step now expected = rotationExpected step now (expected + step) := by
  rw [rotationExpected]
  simp [hs, hle]

theorem rotationExpected_base {step now expected : Int}
    (h : ¬ (0 < step ∧ expected ≤ now)) :
    rotationExpected step now expected = expected := by
  rw [rotationExpected]
  simp [h]

theorem rotationExpected_spec_aux (step now : Int) (hs : 0 < step) :
    ∀ (n : Nat) (expected : Int), expected ≤ now → (now - expected).toNat ≤ n →
      ∃ k : Nat, rotationExpected step now expected = expected + ((k : Int) + 1) * step ∧
        expected + (k : Int) * step ≤ now ∧ now < expected + ((k : Int) + 1) * step := by
  intro n
  induction n with
  | zero =>
    intro expected hle hn
    have hnext : ¬ (expected + step ≤ now) := by omega
    refine ⟨0, ?_, ?_, ?_⟩
    · rw [rotationExpected_step hs hle, rotationExpected_base (by omega)]
      push_cast; ring
    · simpa using hle
    · push_cast; omega
  | succ n ih =>
    intro expected hle hn
    by_cases hnext : expected + step ≤ now
    · obtain ⟨k, hrew, hlo, hhi⟩ := ih (expected + step) hnext (by omega)
      refine ⟨k + 1, ?_, ?_, ?_⟩
      · rw [rotationExpected_step hs hle, hrew]; push_cast; ring
      · push_cast; push_cast at hlo; linarith
      · push_cast; push_cast at hhi; linarith
    · refine ⟨0, ?_, ?_, ?_⟩
      · rw [rotationExpected_step hs hle, rotationExpected_base (by omega)]
        push_cast; ring
      · simpa using hle
      · push_cast; omega

/-- Characterisation of the snap loop: starting at `expected ≤ now` with a
positive step, it returns the first grid point strictly beyond `now`. -/
theorem rotationExpected_spec (step now : Int) (hs : 0 < step)
    (expected : Int) (hle : expected ≤ now) :
    ∃ k : Nat, rotationExpected step now expected = expected + ((k : Int) + 1) * step ∧
      expected + (k : Int) * step ≤ now ∧ now < expected + ((k : Int) + 1) * step :=
  rotationExpected_spec_aux step now hs (now - expected).toNat expected hle le_rfl

theorem intervalDuration_pos {intervalHours : Int} (hi : 0 < intervalHours) :
    0 < intervalDuration intervalHours := by
  unfold intervalDuration secondsPerHour
  split <;> omega

/-- The snapped rotation time for a config with a previous rotation is the
largest point of the grid `last_rotation + k * (interval * 3600)` that does
not lie in the future. -/
theorem snapRotationTime_spec (lr intervalHours now : Int)
    (hi : 0 < intervalHours) (hle : lr ≤ now) :
    ∃ k : Nat,
      snapRotationTime (some lr) intervalHours now
        = lr + (k : Int) * (intervalHours * secondsPerHour) ∧
      lr + (k : Int) * (intervalHours * secondsPerHour) ≤ now ∧
      now < lr + ((k : Int) + 1) * (intervalHours * secondsPerHour) := by
  have hsph : secondsPerHour = 3600 := rfl
  have hs : 0 < intervalHours * secondsPerHour := by rw [hsph]; omega
  obtain ⟨k, hrew, hlo, hhi⟩ :=
    rotationExpected_spec (intervalHours * secondsPerHour) now hs lr hle
  refine ⟨k, ?_, hlo, hhi⟩
  simp only [snapRotationTime]
  rw [hrew]
  have harith : lr + ((k : Int) + 1) * (intervalHours * secondsPerHour)
      - intervalHours * secondsPerHour
      = lr + (k : Int) * (intervalHours * secondsPerHour) := by ring
  rw [harith, if_neg (by omega)]

theorem partitionActivity_cons (m : Member) (rest : List Member) (ito pa : Bool) :
    partitionActivity (m :: rest) ito pa =
      if ito && m.timedOut then partitionActivity rest ito pa
      else if pa then
        (if isOfflineStatus m.status then
          ((partitionActivity rest ito pa).1, m :: (partitionActivity rest ito pa).2)
        else (m :: (partitionActivity rest ito pa).1, (partitionActivity rest ito pa).2))
      else (m :: (partitionActivity rest ito pa).1, (partitionActivity rest ito pa).2) :=
  rfl

/-- Members of the first (active) partition come from the input list, and
with `prioritize_active` set they are never offline. -/
theorem mem_partitionActivity_fst {l : List Member} {ito pa : Bool} {x : Member}
    (hx : x ∈ (partitionActivity l ito pa).1) :
    x ∈ l ∧ (pa = true → isOfflineStatus x.status = false) := by
  induction l with
  | nil => simp [partitionActivity] at hx
  | cons m rest ih =>
    rw [partitionActivity_cons] at hx
    split_ifs at hx with h1 h2 h3
    · obtain ⟨hmem, hoff⟩ := ih hx
      exact ⟨List.mem_cons_of_mem m hmem, hoff⟩
    · obtain ⟨hmem, hoff⟩ := ih hx
      exact ⟨List.mem_cons_of_mem m hmem, hoff⟩
    · simp only [List.mem_cons] at hx
      rcases hx with rfl | hx
      · exact ⟨List.mem_cons_self _ _, fun _ => by
          simpa using h3⟩
      · obtain ⟨hmem, hoff⟩ := ih hx
        exact ⟨List.mem_cons_of_mem m hmem, hoff⟩
    · simp only [List.mem_cons] at hx
      rcases hx with rfl | hx
      · exact ⟨List.mem_cons_self _ _, fun hpa => absurd hpa h2⟩
      · obtain ⟨hmem, hoff⟩ := ih hx
        exact ⟨List.mem_cons_of_mem m hmem, hoff⟩

/-- Members of the second (offline) partition come from the input list. -/
theorem mem_partitionActivity_snd {l : List Member} {ito pa : Bool} {x : Member}
    (hx : x ∈ (partitionActivity l ito pa).2) : x ∈ l := by
  induction l with
  | nil => simp [partitionActivity] at hx
  | cons m rest ih =>
    rw [partitionActivity_cons] at hx
    split_ifs at hx with h1 h2 h3
    · exact List.mem_cons_of_mem m (ih hx)
    · simp only [List.mem_cons] at hx
      rcases hx with rfl | hx
      · exact List.mem_cons_self _ _
      · exact List.mem_cons_of_mem m (ih hx)
    · exact List.mem_cons_of_mem m (ih hx)
    · exact List.mem_cons_of_mem m (ih hx)

/-- The two partitions together are a permutation of the timeout-filtered
input list. -/
theorem partitionActivity_perm (l : List Member) (ito pa : Bool) :
    List.Perm
      ((partitionActivity l ito pa).1 ++ (partitionActivity l ito pa).2)
      (l.filter (fun m => !(ito && m.timedOut))) := by
  induction l with
  | nil => simp [partitionActivity]
  | cons m rest ih =>
    rw [partitionActivity_cons, List.filter_cons]
    by_cases h1 : (ito && m.timedOut) = true
    · simp only [if_pos h1, h1, Bool.not_true, Bool.false_eq_true, if_false]
      exact ih
    · have h1f : (ito && m.timedOut) = false := by
        revert h1; cases (ito && m.timedOut) <;> simp
      simp only [if_neg h1, h1f, Bool.not_false, if_true]
      by_cases h2 : pa = true
      · rw [if_pos h2]
        by_cases h3 : isOfflineStatus m.status = true
        · rw [if_pos h3]
          exact (List.perm_middle).trans (ih.cons m)
        · rw [if_neg h3]
          exact ih.cons m
      · rw [if_neg h2]
        exact ih.cons m

/-- Decomposition of the selection: every selected member comes from the
active list, or from the offline list when the active list was exhausted;
and when the active list covers `max_users` the selection is exactly its
prefix. -/
theorem selectSpotlight_spec (active offline : List Member) (maxUsers : Nat) :
    (∀ m ∈ selectSpotlight active offline maxUsers,
        m ∈ active ∨ (active.length < maxUsers ∧ m ∈ offline)) ∧
    (maxUsers ≤ active.length →
        selectSpotlight active offline maxUsers = active.take maxUsers) := by
  have hlen : (active.take maxUsers).length = min maxUsers active.length :=
    List.length_take _ _
  constructor
  · intro m hm
    simp only [selectSpotlight] at hm
    split_ifs at hm with h
    · rcases List.mem_append.mp hm with h1 | h2
      · exact Or.inl (List.take_subset _ _ h1)
      · refine Or.inr ⟨?_, List.take_subset _ _ h2⟩
        have := h.1
        omega
    · exact Or.inl (List.take_subset _ _ hm)
  · intro hle
    simp only [selectSpotlight]
    rw [if_neg (by rw [hlen]; rintro ⟨hpos, -⟩; omega)]

/-- The selection is a sublist of the concatenated shuffled partitions. -/
theorem selectSpotlight_sublist (active offline : List Member) (maxUsers : Nat) :
    List.Sublist (selectSpotlight active offline maxUsers) (active ++ offline) := by
  simp only [selectSpotlight]
  split_ifs with h
  · exact List.Sublist.append (List.take_sublist _ _) (List.take_sublist _ _)
  · exact (List.take_sublist _ _).trans (List.sublist_append_left _ _)

/-- Structural facts about any member of the presence-eviction eligible
pool: another non-bot guild member holding the initial role, not holding
the target role and not blacklisted. -/
theorem mem_presenceEligible {after : Member} {guild : List Member}
    {cfg : PresenceConfig} {x : Member}
    (hx : x ∈ presenceEligible after guild cfg) :
    x ∈ guild ∧ x.id ≠ after.id ∧ x.roles.contains cfg.initialRole = true ∧
      x.roles.contains cfg.targetRole = false ∧ x.bot = false := by
  have hpot : x ∈ presencePotential after guild cfg := by
    simp only [presenceEligible] at hx
    split_ifs at hx with h1 h2
    · exact (List.mem_filter.mp hx).1
    · exact (List.mem_filter.mp hx).1
    · exact (List.mem_filter.mp hx).1
  simp only [presencePotential, List.mem_filter, Bool.and_eq_true, bne_iff_ne,
    Bool.not_eq_true'] at hpot
  obtain ⟨hg, ⟨⟨⟨hid, hinit⟩, htgt⟩, hbot⟩, hbl⟩ := hpot
  exact ⟨hg, hid, hinit, htgt, hbot⟩

/-- Indexing into a non-empty list modulo its length stays in the list. -/
theorem getD_mod_mem {l : List Member} (h : l ≠ []) (n : Nat) (d : Member) :
    l.getD (n % l.length) d ∈ l := by
  have hlt : n % l.length < l.length := Nat.mod_lt _ (List.length_pos.mpr h)
  rw [List.getD_eq_getElem?_getD, List.getElem?_eq_getElem hlt]
  exact List.getElem_mem hlt

theorem countGrants_append (a b : List RoleOp) :
    countGrants (a ++ b) = countGrants a + countGrants b := by
  simp [countGrants, List.filter_append]

theorem countRevokes_append (a b : List RoleOp) :
    countRevokes (a ++ b) = countRevokes a + countRevokes b := by
  simp [countRevokes, List.filter_append]

theorem countGrants_grantMap (l : List Member) (t : Nat) :
    countGrants (l.map (fun m => { memberId := m.id, roleId := t, add := true }))
      = l.length := by
  induction l with
  | nil => rfl
  | cons x xs ih => simp [countGrants, List.filter_cons] at ih ⊢; omega

theorem countGrants_revokeMap (l : List Member) (t : Nat) :
    countGrants (l.map (fun m => { memberId := m.id, roleId := t, add := false }))
      = 0 := by
  induction l with
  | nil => rfl
  | cons x xs ih => simpa [countGrants, List.filter_cons] using ih

theorem countRevokes_revokeMap (l : List Member) (t : Nat) :
    countRevokes (l.map (fun m => { memberId := m.id, roleId := t, add := false }))
      = l.length := by
  induction l with
  | nil => rfl
  | cons x xs ih => simp [countRevokes, List.filter_cons] at ih ⊢; omega

theorem countRevokes_grantMap (l : List Member) (t : Nat) :
    countRevokes (l.map (fun m => { memberId := m.id, roleId := t, add := true }))
      = 0 := by
  induction l with
  | nil => rfl
  | cons x xs ih => simpa [countRevokes, List.filter_cons] using ih

/-- Counting an operation in the image of a member list under a fixed
role/direction equals counting the member id. -/
theorem count_opMap_same (l : List Member) (t mid : Nat) (b : Bool) :
    (l.map (fun x => ({ memberId := x.id, roleId := t, add := b } : RoleOp))).count
        { memberId := mid, roleId := t, add := b }
      = (l.map Member.id).count mid := by
  induction l with
  | nil => rfl
  | cons x xs ih =>
    simp only [List.map_cons, List.count_cons, ih]
    by_cases hx : mid = x.id
    · simp [hx]
    · have hne : ({ memberId := mid, roleId := t, add := b } : RoleOp)
          ≠ { memberId := x.id, roleId := t, add := b } := by
        simp [RoleOp.mk.injEq, hx]
      simp [hx, hne]

/-- An operation with the opposite direction never occurs in such an
image. -/
theorem count_opMap_diff (l : List Member) (t mid : Nat) (b c : Bool) (hbc : b ≠ c) :
    (l.map (fun x => ({ memberId := x.id, roleId := t, add := b } : RoleOp))).count
        { memberId := mid, roleId := t, add := c } = 0 := by
  rw [List.count_eq_zero]
  intro hmem
  obtain ⟨x, _, hfx⟩ := List.mem_map.mp hmem
  exact hbc (congrArg RoleOp.add hfx)

/-- In a list with no duplicate ids, filtering then counting a member's id
yields 1 or 0 according to whether the member passes the filter. -/
theorem count_id_filter (l : List Member) (p : Member → Bool) (m : Member)
    (hnd : (l.map Member.id).Nodup) (hm : m ∈ l) :
    ((l.filter p).map Member.id).count m.id = if p m = true then 1 else 0 := by
  induction l with
  | nil => cases hm
  | cons x xs ih =>
    simp only [List.map_cons, List.nodup_cons] at hnd
    obtain ⟨hxnot, hnd2⟩ := hnd
    rw [List.filter_cons]
    have hnotin : ∀ y : Member, y ∈ xs → y.id ≠ x.id := by
      intro y hy he
      exact hxnot (he ▸ List.mem_map.mpr ⟨y, hy, rfl⟩)
    rcases List.mem_cons.mp hm with rfl | hm2
    · have h0 : ((xs.filter p).map Member.id).count m.id = 0 := by
        rw [List.count_eq_zero]
        intro hmem
        obtain ⟨y, hy, hyid⟩ := List.mem_map.mp hmem
        exact hnotin y (List.mem_filter.mp hy).1 hyid
      by_cases hp : p m = true
      · rw [if_pos hp, if_pos hp]
        simp [List.count_cons, h0]
      · rw [if_neg hp, if_neg hp]
        exact h0
    · have hmx : m.id ≠ x.id := hnotin m hm2
      by_cases hp : p x = true
      · rw [if_pos hp]
        simp only [List.map_cons, List.count_cons, ih hnd2 hm2]
        simp [Ne.symm hmx]
      · rw [if_neg hp]
        exact ih hnd2 hm2

/-- `memMember` holds as soon as some element shares the id. -/
theorem memMember_of_mem {xs : List Member} {y m : Member}
    (hy : y ∈ xs) (hid : y.id = m.id) : memMember xs m = true := by
  simp only [memMember, List.any_eq_true]
  exact ⟨y, hy, by simp [hid]⟩

/-- Guild membership and id-uniqueness of the selection produced from the
shuffled partitions of the eligible list. -/
theorem selectSpotlight_from_guild (guild : List Member) (initialRole : Nat)
    (blacklisted : List Nat) (ito pa : Bool) (maxUsers : Nat)
    (shuffA shuffO : List Member)
    (hnd : (guild.map Member.id).Nodup)
    (hA : List.Perm shuffA
        (partitionActivity (allEligible guild initialRole blacklisted) ito pa).1)
    (hO : List.Perm shuffO
        (partitionActivity (allEligible guild initialRole blacklisted) ito pa).2) :
    (∀ m ∈ selectSpotlight shuffA shuffO maxUsers, m ∈ guild) ∧
    ((selectSpotlight shuffA shuffO maxUsers).map Member.id).Nodup := by
  have heSub : List.Sublist (allEligible guild initialRole blacklisted) guild :=
    List.filter_sublist _
  have hfe : List.Sublist
      ((allEligible guild initialRole blacklisted).filter
        (fun m => !(ito && m.timedOut))) guild :=
    (List.filter_sublist _).trans heSub
  have hperm : List.Perm (shuffA ++ shuffO)
      ((allEligible guild initialRole blacklisted).filter
        (fun m => !(ito && m.timedOut))) :=
    (hA.append hO).trans (partitionActivity_perm _ _ _)
  have hsub := selectSpotlight_sublist shuffA shuffO maxUsers
  constructor
  · intro m hm
    exact hfe.subset (hperm.subset (hsub.subset hm))
  · have h1 : (((allEligible guild initialRole blacklisted).filter
        (fun m => !(ito && m.timedOut))).map Member.id).Nodup :=
      hnd.sublist (hfe.map _)
    have h2 : ((shuffA ++ shuffO).map Member.id).Nodup :=
      ((hperm.map Member.id).nodup_iff).mpr h1
    exact h2.sublist (hsub.map _)

end Spotlight

namespace Claims

open Spotlight

/-- C1: the rotation tick's due check classifies a config as due exactly
when `last_rotation` is null or `now >= last_rotation + rotation_interval`
(with the debug value 5 meaning a one-minute interval), and a config with
null `last_rotation` is due unconditionally. -/
theorem spotlight_due_check_spec (lastRotation : Option Int) (intervalHours now : Int) :
    (isDue lastRotation intervalHours now = true ↔
      lastRotation = none ∨
        ∃ lr, lastRotation = some lr ∧ lr + intervalDuration intervalHours ≤ now) ∧
    isDue none intervalHours now = true := by
  constructor
  · cases lastRotation with
    | none => simp [isDue]
    | some lr => simp [isDue]
  · rfl

/-- C9 (counterexample): the due check is a pure function of
`(last_rotation, rotation_interval, now)`; with `last_rotation` fixed at
null, both the first and the second evaluation at the same wall-clock time
return "due", so the second evaluation is not "not due" as claimed. -/
theorem due_check_twice_counterexample :
    (isDue none 1 0, isDue none 1 0) = (true, true) := by
  decide

/-- C9 (amended): the due check is deterministic, so idempotence only holds
through the bookkeeping that follows a successful rotation pass: once
`last_rotation` has been advanced at wall-clock time `now` (for a
non-debug interval, i.e. `rotation_interval ≠ 5`), re-evaluating the due
check at the same `now` yields "not due". -/
theorem due_check_not_due_after_rotation (lastRotation : Option Int)
    (intervalHours now : Int) (hi : 0 < intervalHours) (hne : intervalHours ≠ 5)
    (hdue : isDue lastRotation intervalHours now = true) :
    isDue (rotationBookkeeping false lastRotation intervalHours now) intervalHours now
      = false := by
  have hdur : intervalDuration intervalHours = intervalHours * secondsPerHour := by
    unfold intervalDuration
    rw [if_neg hne]
  cases lastRotation with
  | none =>
    simp only [rotationBookkeeping, if_neg Bool.false_ne_true, snapRotationTime]
    simp only [isDue, decide_eq_false_iff_not, not_le]
    have := intervalDuration_pos hi
    omega
  | some lr =>
    simp only [isDue, decide_eq_true_eq] at hdue
    have hle : lr ≤ now := by
      have := intervalDuration_pos hi
      omega
    obtain ⟨k, hsnap, hlo, hhi⟩ := snapRotationTime_spec lr intervalHours now hi hle
    simp only [rotationBookkeeping, if_neg Bool.false_ne_true, hsnap]
    simp only [isDue, decide_eq_false_iff_not, not_le, hdur]
    nlinarith [hhi]

/-- C9 witness: the amended idempotence instantiated at
`last_rotation = 0`, a one-hour interval and `now = 4000`. -/
theorem due_check_not_due_after_rotation_witness :
    isDue (rotationBookkeeping false (some 0) 1 4000) 1 4000 = false :=
  due_check_not_due_after_rotation (some 0) 1 4000 (by decide) (by decide) (by decide)

/-- C4 (counterexample): with the debug interval value 5 (meaning a
one-minute rotation interval per the due check), `last_rotation = 0` and
`now = 90`, the config is due, yet the bookkeeping writes back `0`: the
snap loop always steps by `rotation_interval` **hours** (here 5 h = 18000 s),
so the stored value is not the largest `last_rotation + k·interval` grid
point `≤ now` of the one-minute interval grid — the boundary `0 + 60 ≤ 90`
is larger. -/
theorem spotlight_snap_debug_counterexample :
    isDue (some 0) 5 90 = true ∧
    rotationBookkeeping false (some 0) 5 90 = some 0 ∧
    0 + intervalDuration 5 ≤ 90 := by
  refine ⟨by decide, ?_, by decide⟩
  have h1 : rotationExpected ((5:Int) * secondsPerHour) 90 0 = 18000 := by
    rw [rotationExpected_step (by norm_num [secondsPerHour]) (by norm_num)]
    rw [rotationExpected_base (by norm_num [secondsPerHour])]
    norm_num [secondsPerHour]
  simp only [rotationBookkeeping, if_neg Bool.false_ne_true, snapRotationTime, h1]
  norm_num [secondsPerHour]

/-- C4 (amended): taking `rotation_interval` as the stored hours value
unconditionally (the bookkeeping snaps by `interval` hours even for the
debug value 5), a successful rotation pass for a config with non-null
`last_rotation` stores the largest value `last_rotation + k·(interval·3600)`
that is `≤ now` (never wall-clock `now` off that grid), and a failed
enqueue leaves `last_rotation` unchanged so the config stays due at any
later tick. -/
theorem spotlight_last_rotation_snap (lr intervalHours now : Int)
    (hi : 0 < intervalHours)
    (hdue : isDue (some lr) intervalHours now = true) :
    (∃ k : Nat,
        rotationBookkeeping false (some lr) intervalHours now
          = some (lr + (k : Int) * (intervalHours * secondsPerHour)) ∧
        lr + (k : Int) * (intervalHours * secondsPerHour) ≤ now ∧
        now < lr + ((k : Int) + 1) * (intervalHours * secondsPerHour) ∧
        (∀ j : Nat, lr + (j : Int) * (intervalHours * secondsPerHour) ≤ now →
          lr + (j : Int) * (intervalHours * secondsPerHour)
            ≤ lr + (k : Int) * (intervalHours * secondsPerHour))) ∧
    rotationBookkeeping true (some lr) intervalHours now = some lr ∧
    (∀ later : Int, now ≤ later → isDue (some lr) intervalHours later = true) := by
  have hsph : secondsPerHour = 3600 := rfl
  have hstep : (0:Int) < intervalHours * secondsPerHour := by rw [hsph]; omega
  simp only [isDue, decide_eq_true_eq] at hdue
  have hdur := intervalDuration_pos hi
  have hle : lr ≤ now := by omega
  obtain ⟨k, hsnap, hlo, hhi⟩ := snapRotationTime_spec lr intervalHours now hi hle
  refine ⟨⟨k, ?_, hlo, hhi, ?_⟩, ?_, ?_⟩
  · simp only [rotationBookkeeping, if_neg Bool.false_ne_true, hsnap]
  · intro j hjle
    have h1 : (j : Int) * (intervalHours * secondsPerHour)
        < ((k : Int) + 1) * (intervalHours * secondsPerHour) := by linarith
    have h2 : (j : Int) < (k : Int) + 1 :=
      lt_of_mul_lt_mul_right h1 (le_of_lt hstep)
    have h3 : (j : Int) ≤ (k : Int) := by omega
    have := mul_le_mul_of_nonneg_right h3 (le_of_lt hstep)
    linarith
  · simp [rotationBookkeeping]
  · intro later hl
    simp only [isDue, decide_eq_true_eq]
    linarith

/-- C4 witness: the amended bookkeeping claim instantiated at
`last_rotation = 0`, a one-hour interval and `now = 4000`; on enqueue
failure the stored value stays `0`. -/
theorem spotlight_last_rotation_snap_witness :
    (0:Int) < 1 ∧ isDue (some 0) 1 4000 = true ∧
    rotationBookkeeping true (some 0) 1 4000 = some 0 :=
  ⟨by decide, by decide,
    (spotlight_last_rotation_snap 0 1 4000 (by decide) (by decide)).2.1⟩

/-- C7 (counterexample): ops 1, 2, 3 enqueued in that order with op 2
failing twice then succeeding: because a failed operation is pushed back
to the **front** of the queue (`appendleft`) and the consumer pops from
the front, op 2 is retried before op 3 ever runs, so the applied order is
`[1, 2, 3]`, not `[1, 3, 2]` as claimed. -/
theorem role_queue_retry_order_counterexample :
    (runQueue failsSecondTwice 5 [⟨1, 0⟩, ⟨2, 0⟩, ⟨3, 0⟩] []).2 = [1, 2, 3] ∧
    ([1, 2, 3] : List Nat) ≠ [1, 3, 2] := by
  decide

/-- C7 (amended): for any ops `a`, `b`, `c` enqueued in that order where
`a` and `c` succeed immediately and `b` fails twice then succeeds on its
third attempt, the queue drains in five consumer iterations with applied
order `[a, b, c]`: the retried operation returns to the front of the
queue and completes before later-enqueued operations. -/
theorem role_queue_retry_front_order (a b c : Nat) (fails : Nat → Nat → Bool)
    (ha : fails a 0 = false) (hc : fails c 0 = false)
    (hb0 : fails b 0 = true) (hb1 : fails b 1 = true) (hb2 : fails b 2 = false) :
    runQueue fails 5 [⟨a, 0⟩, ⟨b, 0⟩, ⟨c, 0⟩] [] = ([], [a, b, c]) := by
  simp [runQueue, queueStep, ha, hb0, hb1, hb2, hc]

/-- C7 witness: the amended ordering instantiated at ops 1, 2, 3 with the
concrete failure pattern. -/
theorem role_queue_retry_front_order_witness :
    runQueue failsSecondTwice 5 [⟨1, 0⟩, ⟨2, 0⟩, ⟨3, 0⟩] [] = ([], [1, 2, 3]) :=
  role_queue_retry_front_order 1 2 3 failsSecondTwice
    (by decide) (by decide) (by decide) (by decide) (by decide)

/-- C8 (counterexample): storing prefix `"a️"` (with an emoji
variation selector) and suffix `"b"` and reading them back returns
`"a"`, not the stored string: `set_role_prefix_suffix` stores raw values
and the U+FE0F normalisation happens only in `get_role_prefix_suffix`. -/
theorem card_roundtrip_counterexample :
    Card.getRolePrefixSuffix
        (Card.setRolePrefixSuffix [] 1 2 (some "a️") (some "b")).1 1 2
      = some (some "a", some "b") ∧
    (some "a" : Option String) ≠ some "a️" := by
  constructor
  · rfl
  · decide

/-- C8 (amended): `set_role_prefix_suffix` followed by
`get_role_prefix_suffix` on the same (guild, role) returns the stored
values as transformed by the **read** path only: truthy strings come back
with every U+FE0F removed, and null or empty stored values come back as
null; strings free of U+FE0F therefore round-trip exactly. -/
theorem card_roundtrip_normalized (store : Card.CardStore)
    (guildId roleId : Nat) (pfx sfx : Option String)
    (h : ¬ (pfx = none ∧ sfx = none)) :
    Card.getRolePrefixSuffix
        (Card.setRolePrefixSuffix store guildId roleId pfx sfx).1 guildId roleId
      = some (Card.readBack pfx, Card.readBack sfx) := by
  simp only [Card.setRolePrefixSuffix, if_neg h]
  simp [Card.getRolePrefixSuffix, List.find?, Card.readBack]

/-- C8 witness: a prefix `"x"` with no variation selector and a null
suffix round-trip to exactly the stored values. -/
theorem card_roundtrip_normalized_witness :
    ¬ ((some "x" : Option String) = none ∧ (none : Option String) = none) ∧
    Card.getRolePrefixSuffix
        (Card.setRolePrefixSuffix [] 1 2 (some "x") none).1 1 2
      = some (some "x", none) :=
  ⟨by simp, (card_roundtrip_normalized [] 1 2 (some "x") none (by simp)).trans (by rfl)⟩

/-- C10 (counterexample): guild 1 is at its config limit (one stored row,
default `max_configs` 1) and the invocation's (initial 11, target 20)
pair matches no stored row, yet the reply is the duplicate-target
rejection, not the limit-reached message, because target role 20 is
already driven by initial role 10 and that check runs first. -/
theorem set_spotlight_limit_counterexample :
    getGuildMaxConfigs exState exInput.guildId
        ≤ ((exState.rows.filter (fun r => r.guildId == exInput.guildId)).length : Int) ∧
    exState.rows.any (fun r =>
        r.guildId == exInput.guildId && r.initialRoleId == exInput.initialRoleId
          && r.targetRoleId == exInput.targetRoleId) = false ∧
    setSpotlight exState exInput = (SetReply.duplicateTarget, exState) ∧
    SetReply.duplicateTarget ≠ SetReply.limitReached := by
  refine ⟨by decide, by decide, ?_, by decide⟩
  decide

/-- C10 (amended): for an invocation that passes input validation
(permitted interval, `max_users` in [1,8], both roles below the bot's top
role, distinct roles, options payload present) in a state where every row
sharing the invocation's (guild, target role) also shares its initial
role: if no exact (guild, initial, target) row exists and the guild's
stored config count has reached `max_configs` (default 1), the command
replies limit-reached and leaves the state unchanged; if an exact row
exists, it replies updated regardless of the limit. -/
theorem set_spotlight_limit_behavior (st : SpotState) (inp : SetInput)
    (hint : ¬ (inp.rotationIntervalHours = 5 ∧ inp.userId ≠ 311456723682590721))
    (hmax1 : 1 ≤ inp.maxUsers) (hmax8 : inp.maxUsers ≤ 8)
    (hpos1 : inp.initialRolePos < inp.botTopRolePos)
    (hpos2 : inp.targetRolePos < inp.botTopRolePos)
    (hroles : inp.initialRoleId ≠ inp.targetRoleId)
    (hopts : inp.hasOptions = true)
    (htarget : ∀ r ∈ st.rows, r.guildId = inp.guildId →
        r.targetRoleId = inp.targetRoleId → r.initialRoleId = inp.initialRoleId) :
    ((¬ ∃ r ∈ st.rows, r.guildId = inp.guildId ∧ r.initialRoleId = inp.initialRoleId ∧
          r.targetRoleId = inp.targetRoleId) →
      getGuildMaxConfigs st inp.guildId
          ≤ ((st.rows.filter (fun r => r.guildId == inp.guildId)).length : Int) →
      setSpotlight st inp = (SetReply.limitReached, st)) ∧
    ((∃ r ∈ st.rows, r.guildId = inp.guildId ∧ r.initialRoleId = inp.initialRoleId ∧
          r.targetRoleId = inp.targetRoleId) →
      (setSpotlight st inp).1 = SetReply.updated) := by
  have h1 : (inp.rotationIntervalHours == 5 && inp.userId != 311456723682590721)
      = false := by
    by_cases h5 : inp.rotationIntervalHours = 5
    · have := fun h => hint ⟨h5, h⟩
      have huser : inp.userId = 311456723682590721 := by tauto
      simp [h5, huser]
    · simp [h5]
  have hpass : ∀ outcome : SetReply × SpotState,
      setSpotlightUpsert st inp = outcome → setSpotlight st inp = outcome := by
    intro outcome hout
    unfold setSpotlight
    rw [h1]
    simp only [Bool.false_eq_true, if_false]
    rw [if_neg (by omega), if_neg (by omega), if_neg (by omega), if_neg (by omega),
      if_neg (by simp [hroles])]
    cases hfind : st.rows.find? (fun r =>
        r.guildId == inp.guildId && r.targetRoleId == inp.targetRoleId) with
    | none => exact hout
    | some existing =>
        have hmem := List.mem_of_find?_eq_some hfind
        have hprop := List.find?_some hfind
        simp only [Bool.and_eq_true, beq_iff_eq] at hprop
        have hinit : existing.initialRoleId = inp.initialRoleId :=
          htarget existing hmem hprop.1 hprop.2
        simp only [hinit, hopts, bne_self_eq_false, Bool.not_true, Bool.or_false,
          Bool.false_eq_true, if_false]
        exact hout
  constructor
  · intro hnone hcount
    apply hpass
    unfold setSpotlightUpsert
    have hany : st.rows.any (fun r =>
        r.guildId == inp.guildId && r.initialRoleId == inp.initialRoleId
          && r.targetRoleId == inp.targetRoleId) = false := by
      rw [List.any_eq_false]
      intro r hr
      simp only [Bool.and_eq_true, beq_iff_eq]
      rintro ⟨⟨hg, hi⟩, ht⟩
      exact hnone ⟨r, hr, hg, hi, ht⟩
    rw [hany]
    simp only [Bool.false_eq_true, if_false]
    rw [if_pos hcount]
  · intro hsome
    obtain ⟨r, hr, hg, hi, ht⟩ := hsome
    have hany : st.rows.any (fun r =>
        r.guildId == inp.guildId && r.initialRoleId == inp.initialRoleId
          && r.targetRoleId == inp.targetRoleId) = true := by
      rw [List.any_eq_true]
      exact ⟨r, hr, by simp [hg, hi, ht]⟩
    have := hpass _ rfl
    rw [this]
    unfold setSpotlightUpsert
    rw [hany]
    simp

/-- C10 witness: guild 1 at its default limit of 1, a fresh valid
(initial 11, target 20) pair with target role 20 unused: the command
replies limit-reached and the state is unchanged. -/
theorem set_spotlight_limit_behavior_witness :
    setSpotlight exStateLimit exInputLimit = (SetReply.limitReached, exStateLimit) :=
  (set_spotlight_limit_behavior exStateLimit exInputLimit
      (by decide) (by decide) (by decide) (by decide) (by decide) (by decide)
      (by decide) (by decide)).1 (by decide) (by decide)

/-- C5: with `prioritize_active` every selected member comes from the
shuffled active partition, or from the offline partition only for slots
left after the active partition is exhausted; when the active partition
covers `max_users` the selection is exactly its prefix and consists of
non-offline eligible members only. -/
theorem spotlight_active_first_selection
    (eligible shuffledActive shuffledOffline : List Member)
    (ignoreTimedOut : Bool) (maxUsers : Nat)
    (hA : List.Perm shuffledActive
        (partitionActivity eligible ignoreTimedOut true).1)
    (hO : List.Perm shuffledOffline
        (partitionActivity eligible ignoreTimedOut true).2) :
    (∀ m ∈ selectSpotlight shuffledActive shuffledOffline maxUsers,
        m ∈ shuffledActive ∨ (shuffledActive.length < maxUsers ∧ m ∈ shuffledOffline)) ∧
    (maxUsers ≤ shuffledActive.length →
      selectSpotlight shuffledActive shuffledOffline maxUsers
          = shuffledActive.take maxUsers ∧
      ∀ m ∈ selectSpotlight shuffledActive shuffledOffline maxUsers,
        m ∈ eligible ∧ isOfflineStatus m.status = false) := by
  refine ⟨(selectSpotlight_spec _ _ _).1, fun hle => ⟨(selectSpotlight_spec _ _ _).2 hle, ?_⟩⟩
  intro m hm
  rw [(selectSpotlight_spec _ _ _).2 hle] at hm
  have hmA : m ∈ shuffledActive := List.take_subset _ _ hm
  have hmP : m ∈ (partitionActivity eligible ignoreTimedOut true).1 := hA.mem_iff.mp hmA
  obtain ⟨hmem, hoff⟩ := mem_partitionActivity_fst hmP
  exact ⟨hmem, hoff rfl⟩

/-- C5 witness: ten eligible members, four active and six offline,
`max_users = 3` with identity shuffles: all three selected members are
active. -/
theorem spotlight_active_first_selection_witness :
    3 ≤ (partitionActivity exTen false true).1.length ∧
    ∀ m ∈ selectSpotlight (partitionActivity exTen false true).1
        (partitionActivity exTen false true).2 3,
      m ∈ exTen ∧ isOfflineStatus m.status = false :=
  ⟨by decide,
    ((spotlight_active_first_selection exTen
        (partitionActivity exTen false true).1
        (partitionActivity exTen false true).2 false 3
        (List.Perm.refl _) (List.Perm.refl _)).2 (by decide)).2⟩

/-- C6: a member transitioning to offline who holds the target role of a
config with `remove_when_offline`: when the eligible replacement pool is
non-empty, exactly one revoke (the departing member) and one grant (a
chosen replacement that is eligible, distinct and not a holder) are
enqueued; when it is empty nothing is enqueued; in both cases the config's
`last_rotation` passes through unchanged. -/
theorem spotlight_presence_eviction
    (beforeStatus : Status) (after : Member) (guild : List Member)
    (cfg : PresenceConfig) (pick : Nat) (lastRotation : Option Int)
    (htrans : beforeStatus ≠ after.status) (hoff : after.status = Status.offline)
    (hrwo : cfg.removeWhenOffline = true)
    (hholds : after.roles.contains cfg.targetRole = true) :
    (presenceEligible after guild cfg ≠ [] →
      ∃ replacement, replacement ∈ presenceEligible after guild cfg ∧
        replacement.id ≠ after.id ∧
        replacement.roles.contains cfg.targetRole = false ∧
        (onPresenceUpdate beforeStatus after guild cfg pick lastRotation).1
          = [{ memberId := after.id, roleId := cfg.targetRole, add := false },
             { memberId := replacement.id, roleId := cfg.targetRole, add := true }]) ∧
    (presenceEligible after guild cfg = [] →
      (onPresenceUpdate beforeStatus after guild cfg pick lastRotation).1 = []) ∧
    (onPresenceUpdate beforeStatus after guild cfg pick lastRotation).2
      = lastRotation := by
  have hguard1 : (beforeStatus == after.status) = false := by
    simp [htrans]
  have hguard2 : (after.status != Status.offline) = false := by
    simp [hoff]
  have hops : onPresenceUpdate beforeStatus after guild cfg pick lastRotation
      = (presenceConfigOps after guild cfg pick, lastRotation) := by
    simp only [onPresenceUpdate, hguard1, hguard2, Bool.false_eq_true, if_false]
  refine ⟨?_, ?_, by rw [hops]⟩
  · intro hne
    have hrep := getD_mod_mem hne pick after
    obtain ⟨hg, hid, hinit, htgt, hbot⟩ := mem_presenceEligible hrep
    refine ⟨presenceEligible after guild cfg |>.getD
        (pick % (presenceEligible after guild cfg).length) after,
      hrep, hid, htgt, ?_⟩
    rw [hops]
    simp only [presenceConfigOps, hrwo, Bool.not_true, Bool.false_eq_true, if_false,
      hholds, List.isEmpty_eq_true]
    rw [if_neg hne]
  · intro hempty
    rw [hops]
    simp only [presenceConfigOps, hrwo, Bool.not_true, Bool.false_eq_true, if_false,
      hholds, List.isEmpty_eq_true]
    rw [if_pos hempty]

/-- C6 witness: the departing holder (online → offline) and one eligible
replacement: exactly one revoke and one grant are enqueued and the
`last_rotation` value `some 5` passes through unchanged. -/
theorem spotlight_presence_eviction_witness :
    (∃ replacement, replacement ∈ presenceEligible exAfter exPresenceGuild exPresenceCfg ∧
        replacement.id ≠ exAfter.id ∧
        replacement.roles.contains exPresenceCfg.targetRole = false ∧
        (onPresenceUpdate Status.online exAfter exPresenceGuild exPresenceCfg 0 (some 5)).1
          = [{ memberId := exAfter.id, roleId := exPresenceCfg.targetRole, add := false },
             { memberId := replacement.id, roleId := exPresenceCfg.targetRole, add := true }]) ∧
    (onPresenceUpdate Status.online exAfter exPresenceGuild exPresenceCfg 0 (some 5)).2
      = some 5 := by
  have h := spotlight_presence_eviction Status.online exAfter exPresenceGuild
    exPresenceCfg 0 (some 5) (by decide) (by decide) (by decide) (by decide)
  exact ⟨h.1 (by decide), h.2.2⟩

/-- C2: in standard mode the rotation pass is a set-difference
reconciliation: exactly one revoke for each current holder (of both
roles) outside the new selection, exactly one grant for each selected
member not already holding the target role, and no operation at all for a
selected member that already holds it. -/
theorem spotlight_standard_reconciliation
    (guild : List Member) (initialRole targetRole : Nat) (blacklisted : List Nat)
    (ito pa : Bool) (maxUsers : Nat) (shuffA shuffO : List Member)
    (hnd : (guild.map Member.id).Nodup)
    (hA : List.Perm shuffA
        (partitionActivity (allEligible guild initialRole blacklisted) ito pa).1)
    (hO : List.Perm shuffO
        (partitionActivity (allEligible guild initialRole blacklisted) ito pa).2) :
    (∀ m ∈ currentSpotlight guild initialRole targetRole,
        memMember (selectSpotlight shuffA shuffO maxUsers) m = false →
        (standardOps (currentSpotlight guild initialRole targetRole)
            (selectSpotlight shuffA shuffO maxUsers) targetRole).count
            { memberId := m.id, roleId := targetRole, add := false } = 1 ∧
        (standardOps (currentSpotlight guild initialRole targetRole)
            (selectSpotlight shuffA shuffO maxUsers) targetRole).count
            { memberId := m.id, roleId := targetRole, add := true } = 0) ∧
    (∀ m ∈ selectSpotlight shuffA shuffO maxUsers,
        m.roles.contains targetRole = false →
        (standardOps (currentSpotlight guild initialRole targetRole)
            (selectSpotlight shuffA shuffO maxUsers) targetRole).count
            { memberId := m.id, roleId := targetRole, add := true } = 1 ∧
        (standardOps (currentSpotlight guild initialRole targetRole)
            (selectSpotlight shuffA shuffO maxUsers) targetRole).count
            { memberId := m.id, roleId := targetRole, add := false } = 0) ∧
    (∀ m ∈ selectSpotlight shuffA shuffO maxUsers,
        m.roles.contains targetRole = true →
        ∀ op ∈ standardOps (currentSpotlight guild initialRole targetRole)
            (selectSpotlight shuffA shuffO maxUsers) targetRole,
          op.memberId ≠ m.id) := by
  obtain ⟨hselg, hselnd⟩ := selectSpotlight_from_guild guild initialRole blacklisted
    ito pa maxUsers shuffA shuffO hnd hA hO
  have hcsnd : ((currentSpotlight guild initialRole targetRole).map Member.id).Nodup :=
    hnd.sublist ((List.filter_sublist _).map _)
  set cs := currentSpotlight guild initialRole targetRole with hcs
  set sel := selectSpotlight shuffA shuffO maxUsers with hsel
  refine ⟨?_, ?_, ?_⟩
  · intro m hm hnot
    constructor
    · rw [standardOps, List.count_append, count_opMap_same, count_opMap_diff _ _ _ _ _
        (by simp)]
      rw [count_id_filter cs _ m hcsnd hm]
      simp [hnot]
    · rw [standardOps, List.count_append, count_opMap_diff _ _ _ _ _ (by simp),
        count_opMap_same]
      rw [Nat.zero_add, List.count_eq_zero]
      intro hmem
      obtain ⟨y, hy, hyid⟩ := List.mem_map.mp hmem
      have hysel : y ∈ sel := (List.mem_filter.mp hy).1
      rw [memMember_of_mem hysel hyid] at hnot
      exact Bool.true_eq_false.mp hnot
  · intro m hm hnot
    constructor
    · rw [standardOps, List.count_append, count_opMap_diff _ _ _ _ _ (by simp),
        count_opMap_same]
      have hcond : (!m.roles.contains targetRole) = true := by rw [hnot]; rfl
      rw [count_id_filter sel _ m hselnd hm, hcond, if_pos rfl]
    · rw [standardOps, List.count_append, count_opMap_same, count_opMap_diff _ _ _ _ _
        (by simp)]
      rw [Nat.add_zero, List.count_eq_zero]
      intro hmem
      obtain ⟨y, hy, hyid⟩ := List.mem_map.mp hmem
      obtain ⟨hycs, hyp⟩ := List.mem_filter.mp hy
      rw [memMember_of_mem hm hyid.symm] at hyp
      exact Bool.true_eq_false.mp (by simpa using hyp)
  · intro m hm hholds op hop
    intro heq
    rcases List.mem_append.mp hop with hrev | hgrant
    · obtain ⟨y, hy, hyop⟩ := List.mem_map.mp hrev
      obtain ⟨hycs, hyp⟩ := List.mem_filter.mp hy
      have hyid : y.id = m.id := by
        rw [← heq, ← hyop]
      rw [memMember_of_mem hm hyid.symm] at hyp
      exact Bool.true_eq_false.mp (by simpa using hyp)
    · obtain ⟨y, hy, hyop⟩ := List.mem_map.mp hgrant
      obtain ⟨hysel, hyp⟩ := List.mem_filter.mp hy
      have hyid : y.id = m.id := by
        rw [← heq, ← hyop]
      have hym : y = m :=
        List.inj_on_of_nodup_map hnd (hselg y hysel) (hselg m hm) hyid
      rw [hym] at hyp
      rw [hholds] at hyp
      exact Bool.true_eq_false.mp (by simpa using hyp)

/-- C2 witness: a guild of four (ids 1 and 3 current holders), identity
shuffles and `max_users = 2` select ids 1 and 2; current holder 3 falls
out of the selection and receives exactly one revoke and no grant. -/
theorem spotlight_standard_reconciliation_witness :
    (exGuildFour.map Member.id).Nodup ∧
    ((standardOps (currentSpotlight exGuildFour 10 20)
        (selectSpotlight (partitionActivity (allEligible exGuildFour 10 []) false true).1
          (partitionActivity (allEligible exGuildFour 10 []) false true).2 2) 20).count
        { memberId := 3, roleId := 20, add := false } = 1 ∧
      (standardOps (currentSpotlight exGuildFour 10 20)
        (selectSpotlight (partitionActivity (allEligible exGuildFour 10 []) false true).1
          (partitionActivity (allEligible exGuildFour 10 []) false true).2 2) 20).count
        { memberId := 3, roleId := 20, add := true } = 0) := by
  refine ⟨by decide, ?_⟩
  have h := (spotlight_standard_reconciliation exGuildFour 10 20 [] false true 2
      (partitionActivity (allEligible exGuildFour 10 []) false true).1
      (partitionActivity (allEligible exGuildFour 10 []) false true).2
      (by decide) (List.Perm.refl _) (List.Perm.refl _)).1
  exact h ⟨3, [10, 20], Status.online, false, false⟩ (by decide) (by decide)

/-- C3 (counterexample): `always_replace_current` with current holders
{A, B}, eligible replacements {D, E} and `max_users = 1` (holders exceed
the bound, e.g. after the bound was lowered): the pass revokes
min(2,2) = 2 and grants 2, so the intended holder count is 2 — it exceeds
`max_users = 1`. -/
theorem spotlight_replace_exceeds_max_counterexample :
    countRevokes (replaceOps [exA, exB] [exD, exE] [exA, exB] 1 99) = 2 ∧
    countGrants (replaceOps [exA, exB] [exD, exE] [exA, exB] 1 99) = 2 ∧
    [exA, exB].length
        - countRevokes (replaceOps [exA, exB] [exD, exE] [exA, exB] 1 99)
        + countGrants (replaceOps [exA, exB] [exD, exE] [exA, exB] 1 99) = 2 ∧
    1 < 2 := by
  decide

/-- C3 (amended): provided the current holder count does not already
exceed `max_users`, the replace pass with non-empty holders and
replacements revokes exactly `min(|current_holders|,
|eligible_replacements|)` holders, grants at least that many and at most
that many plus the free slots, and the intended holder count after the
operations never exceeds `max_users`. -/
theorem spotlight_replace_bounded
    (currentSpot replacements usersToRemove : List Member)
    (maxUsers targetRole : Nat)
    (hC : currentSpot ≠ []) (hR : replacements ≠ [])
    (hsample : usersToRemove.length = min currentSpot.length replacements.length)
    (hbound : currentSpot.length ≤ maxUsers) :
    countRevokes (replaceOps currentSpot replacements usersToRemove maxUsers targetRole)
        = min currentSpot.length replacements.length ∧
    min currentSpot.length replacements.length
        ≤ countGrants (replaceOps currentSpot replacements usersToRemove maxUsers targetRole) ∧
    countGrants (replaceOps currentSpot replacements usersToRemove maxUsers targetRole)
        ≤ min currentSpot.length replacements.length + (maxUsers - currentSpot.length) ∧
    currentSpot.length
        - countRevokes (replaceOps currentSpot replacements usersToRemove maxUsers targetRole)
        + countGrants (replaceOps currentSpot replacements usersToRemove maxUsers targetRole)
        ≤ maxUsers := by
  have hCe : currentSpot.isEmpty = false := by
    simpa [List.isEmpty_iff] using hC
  have hRe : replacements.isEmpty = false := by
    simpa [List.isEmpty_iff] using hR
  have hClen := List.length_pos.mpr hC
  have hRlen := List.length_pos.mpr hR
  have hnum : 0 < min currentSpot.length replacements.length := by omega
  simp only [replaceOps, hCe, Bool.false_eq_true, if_false, hRe, Bool.not_false,
    if_true, if_pos hnum]
  rw [countRevokes_append, countRevokes_append, countGrants_append, countGrants_append,
    countRevokes_revokeMap, countRevokes_grantMap, countRevokes_grantMap,
    countGrants_revokeMap, countGrants_grantMap, countGrants_grantMap]
  have htake : (replacements.take (min currentSpot.length replacements.length)).length
      = min currentSpot.length replacements.length := by
    rw [List.length_take]; omega
  have hadd := List.length_take_le
    (maxUsers - (currentSpot.length - usersToRemove.length
      + (replacements.take (min currentSpot.length replacements.length)).length))
    (replacements.filter (fun m =>
      !memMember (replacements.take (min currentSpot.length replacements.length)) m))
  omega

/-- C3 witness: the spec's own scenario — current holders {A, B, C},
eligible replacements {D, E}, `max_users = 3`: exactly min(3,2) = 2
revokes, 2 grants, and the intended holder count 3 does not exceed
`max_users`. -/
theorem spotlight_replace_bounded_witness :
    ([exA, exB, exC] : List Member) ≠ [] ∧ ([exD, exE] : List Member) ≠ [] ∧
    ([exA, exB] : List Member).length
      = min ([exA, exB, exC] : List Member).length ([exD, exE] : List Member).length ∧
    countRevokes (replaceOps [exA, exB, exC] [exD, exE] [exA, exB] 3 99) = 2 ∧
    [exA, exB, exC].length
        - countRevokes (replaceOps [exA, exB, exC] [exD, exE] [exA, exB] 3 99)
        + countGrants (replaceOps [exA, exB, exC] [exD, exE] [exA, exB] 3 99) ≤ 3 := by
  have h := spotlight_replace_bounded [exA, exB, exC] [exD, exE] [exA, exB] 3 99
    (by decide) (by decide) (by decide) (by decide)
  exact ⟨by decide, by decide, by decide, h.1, h.2.2.2⟩

end Claims
